import Mathlib

/-!
Shallow embedding of `src/mainV2.py` (slot-scanner), together with theorems
settling the frozen claims about its specification.

Modelling conventions:
* Python strings are Lean `String` (a list of unicode scalar values, matching
  Python's code-point view of `str`).
* The character classes used by Python here (`\s` in `re`, `str.strip()`,
  `str.splitlines()`, `\d` in `re`) are embedded as explicit character
  predicates; `\d` is modelled as the ASCII digits actually occurring in the
  scraped time texts.
* `unicodedata.normalize("NFC", ·)` is an external Unicode-database primitive
  (like BeautifulSoup or Playwright, an external collaborator); the embedding
  is parametric in it: every definition that calls it takes the normalizer as
  an explicit function argument `nfc : String → String`.
* Fallible Python code (raising exceptions) returns `Except PyErr _` /
  `Option _`; I/O boundaries (browser, SMTP server, snapshot file) are
  explicit arguments (per-date result sets, a network-success flag, the file
  content as `Option String` where `none` models `FileNotFoundError`).
* Calendar dates in the date window are modelled as day numbers (`Nat`,
  days since an arbitrary epoch); consecutive calendar days differ by 1.
-/

/-- Python exception outcomes that the embedded code can raise. -/
inductive PyErr where
  | valueError
  | attributeError
  | smtpError
deriving DecidableEq, Repr

/-- The whitespace class of Python's `str` (`str.isspace`, `re` class `\s`
and the default `str.strip`): ASCII whitespace, the C1 separators
`\x1c`–`\x1f`, NEL, NBSP and the Unicode space characters. -/
def isPySpace (c : Char) : Bool :=
  c == ' ' || c == '\t' || c == '\n' || c == '\x0b' || c == '\x0c' || c == '\r' ||
  c == '\x1c' || c == '\x1d' || c == '\x1e' || c == '\x1f' ||
  c == '\x85' || c == '\xa0' || c == ' ' ||
  (0x2000 ≤ c.toNat && c.toNat ≤ 0x200a) ||
  c == ' ' || c == ' ' || c == ' ' || c == ' ' || c == '　'

/-- The line boundaries of Python's `str.splitlines` (`\r\n` is treated as a
single boundary by `pySplitlinesAux` below). -/
def isLineBreakChar (c : Char) : Bool :=
  c == '\n' || c == '\r' || c == '\x0b' || c == '\x0c' ||
  c == '\x1c' || c == '\x1d' || c == '\x1e' ||
  c == '\x85' || c == ' ' || c == ' '

/-- `s.replace("–", "-").replace("—", "-")` acts characterwise: en dash and
em dash become a hyphen-minus. -/
def dashFix (c : Char) : Char :=
  if c == '–' || c == '—' then '-' else c

/-- `re.sub(r"\s+", " ", s)`: every maximal run of whitespace becomes one
space.  The flag records whether we are inside a whitespace run whose first
character has already been emitted as `' '`. -/
def wsCollapseAux : Bool → List Char → List Char
  | _, [] => []
  | inRun, c :: rest =>
    if isPySpace c then
      if inRun then wsCollapseAux true rest
      else ' ' :: wsCollapseAux true rest
    else c :: wsCollapseAux false rest

/-- Python `str.strip()` on the character list: drop whitespace from both
ends. -/
def pyStripList (l : List Char) : List Char :=
  ((l.dropWhile isPySpace).reverse.dropWhile isPySpace).reverse

/-- The pure string pipeline of `_canonical` after the `unicodedata.normalize`
call: dash replacement, whitespace collapse, strip (lines 57–59 of
`src/mainV2.py`). -/
def postNfc (s : String) : String :=
  String.mk (pyStripList (wsCollapseAux false (s.data.map dashFix)))

/-- `_canonical` (lines 55–59): NFC-normalize (the external normalizer is the
parameter `nfc`), replace en/em dashes by `-`, collapse whitespace runs to a
single space, strip. -/
def _canonical (nfc : String → String) (s : String) : String :=
  postNfc (nfc s)

/-- Python `"\n".join(lines)` / `str.join` with separator `"\n"`. -/
def joinNL : List String → String
  | [] => ""
  | [l] => l
  | l :: l2 :: rest => l ++ "\n" ++ joinNL (l2 :: rest)

/-- Python `str.splitlines`: split at line boundaries, `\r\n` counting as one
boundary; a trailing boundary does not produce a final empty element, and the
empty string yields `[]`.  The accumulator holds the current line reversed. -/
def pySplitlinesAux : List Char → List Char → List String
  | [], acc => if acc.isEmpty then [] else [String.mk acc.reverse]
  | c :: rest, acc =>
    if isLineBreakChar c then
      match rest with
      | [] => [String.mk acc.reverse]
      | d :: rest2 =>
        if c == '\r' && d == '\n' then String.mk acc.reverse :: pySplitlinesAux rest2 []
        else String.mk acc.reverse :: pySplitlinesAux (d :: rest2) []
    else pySplitlinesAux rest (c :: acc)

/-- Python `s.splitlines()`. -/
def pySplitlines (s : String) : List String :=
  pySplitlinesAux s.data []

/-- Numeric value of an ASCII digit. -/
def digitVal (c : Char) : Nat := c.toNat - 48

/-- Lowercased English month names with their month numbers, as matched by
`strptime`'s `%B` directive (which is case-insensitive). -/
def monthNames : List (String × Nat) :=
  [("january", 1), ("february", 2), ("march", 3), ("april", 4),
   ("may", 5), ("june", 6), ("july", 7), ("august", 8),
   ("september", 9), ("october", 10), ("november", 11), ("december", 12)]

/-- Case-insensitively strip the (lowercase) pattern from the front of the
input, returning the rest of the input on success. -/
def stripPrefixCI : List Char → List Char → Option (List Char)
  | [], l => some l
  | _ :: _, [] => none
  | p :: ps, c :: cs => if c.toLower == p then stripPrefixCI ps cs else none

/-- Match one month name (`%B`) at the front of the input. -/
def matchMonth : List (String × Nat) → List Char → Option (Nat × List Char)
  | [], _ => none
  | (name, num) :: rest, l =>
    match stripPrefixCI name.data l with
    | some l2 => some (num, l2)
    | none => matchMonth rest l

/-- Match `strptime`'s `%d`: a two-digit day `01`–`31` (patterns `3[01]`,
`[12]\d`, `0[1-9]`), else a single nonzero digit. -/
def parseDay : List Char → Option (Nat × List Char)
  | c1 :: c2 :: rest =>
    if c1.isDigit && c2.isDigit then
      let v := digitVal c1 * 10 + digitVal c2
      if 1 ≤ v && v ≤ 31 then some (v, rest)
      else if c1 != '0' then some (digitVal c1, c2 :: rest)
      else none
    else if c1.isDigit && c1 != '0' then some (digitVal c1, c2 :: rest)
    else none
  | [c1] => if c1.isDigit && c1 != '0' then some (digitVal c1, []) else none
  | [] => none

/-- Match `strptime`'s `%Y`: exactly four digits. -/
def parse4Digits : List Char → Option (Nat × List Char)
  | a :: b :: c :: d :: rest =>
    if a.isDigit && b.isDigit && c.isDigit && d.isDigit then
      some (digitVal a * 1000 + digitVal b * 100 + digitVal c * 10 + digitVal d, rest)
    else none
  | _ => none

/-- Gregorian leap year, as validated by the `datetime` constructor. -/
def isLeap (y : Nat) : Bool :=
  y % 4 == 0 && (y % 100 != 0 || y % 400 == 0)

/-- Days in a month, as validated by the `datetime` constructor. -/
def daysInMonth (y m : Nat) : Nat :=
  if m == 2 then (if isLeap y then 29 else 28)
  else if m == 4 || m == 6 || m == 9 || m == 11 then 30
  else 31

/-- `datetime.strptime(s, "%B %d, %Y")` on an already-stripped string: month
name, at least one whitespace, day, a comma, at least one whitespace, a
four-digit year, end of input; the day is then validated against the month
length (and the year against `MINYEAR = 1`).  Returns `(year, month, day)`. -/
def parseLongDate (l : List Char) : Option (Nat × Nat × Nat) :=
  match matchMonth monthNames l with
  | none => none
  | some (m, r1) =>
    let r2 := r1.dropWhile isPySpace
    if r2.length == r1.length then none
    else
      match parseDay r2 with
      | none => none
      | some (d, r3) =>
        match r3 with
        | ',' :: r4 =>
          let r5 := r4.dropWhile isPySpace
          if r5.length == r4.length then none
          else
            match parse4Digits r5 with
            | some (y, []) =>
              if 1 ≤ y && d ≤ daysInMonth y m then some (y, m, d) else none
            | _ => none
        | _ => none

/-- Zero-pad a (month or day) number to two digits, as `strftime`'s `%m`/`%d`. -/
def fmtNat2 (n : Nat) : String :=
  if n < 10 then "0" ++ toString n else toString n

/-- `_normalise_date` (lines 62–63): strip the raw text, parse it with
`strptime("%B %d, %Y")` — a failure raises `ValueError` — and re-emit it as
`%Y-%m-%d` (glibc prints the year unpadded; inputs are four-digit years). -/
def _normalise_date (raw : String) : Except PyErr String :=
  match parseLongDate (pyStripList raw.data) with
  | none => .error .valueError
  | some (y, m, d) => .ok (toString y ++ "-" ++ fmtNat2 m ++ "-" ++ fmtNat2 d)

/-- Match `\d{2}:\d{2}` at the front of the input, returning the matched text
and the rest. -/
def matchHM : List Char → Option (String × List Char)
  | a :: b :: ':' :: c :: d :: rest =>
    if a.isDigit && b.isDigit && c.isDigit && d.isDigit then
      some (String.mk [a, b, ':', c, d], rest)
    else none
  | _ => none

/-- Match `_TIME_RE` = `(\d{2}:\d{2})\s*-\s*(\d{2}:\d{2})` at the front of the
input, returning the two captured groups. -/
def matchTimePair (l : List Char) : Option (String × String) :=
  match matchHM l with
  | none => none
  | some (s1, rest) =>
    match rest.dropWhile isPySpace with
    | '-' :: rest2 =>
      match matchHM (rest2.dropWhile isPySpace) with
      | none => none
      | some (s2, _) => some (s1, s2)
    | _ => none

/-- `_TIME_RE.search`: the leftmost position where the pattern matches. -/
def timeSearchAux : List Char → Option (String × String)
  | [] => none
  | c :: rest =>
    match matchTimePair (c :: rest) with
    | some p => some p
    | none => timeSearchAux rest

/-- `_TIME_RE.search(s)` (line 52 pattern, used at line 72). -/
def timeSearch (s : String) : Option (String × String) :=
  timeSearchAux s.data

/-- Abstraction of one booking-card DOM element as `_card_to_line` observes
it: the text of `span.text-gray-400.text-sm` if that sub-element exists, the
text of `span.font-semibold.text-xl` if it exists, and the
`get_text(strip=True)` of the nearest preceding `h3` element in document
order if one exists. -/
structure Card where
  dateSpan : Option String
  timeSpan : Option String
  prevH3 : Option String

/-- `_card_to_line` (lines 66–79).  Returns `.ok none` for a silently skipped
card, `.ok (some line)` for a parsed slot line, `.error e` when the Python
code raises.  Note the title expression
`(card_div.find_previous("h3") or "").get_text(strip=True)`: when no
preceding `h3` exists, `find_previous` returns `None`, the `or` produces the
plain string `""`, and `str` has no `get_text` method — an `AttributeError`.
When an `h3` exists but its stripped text is empty, the final
`or "Unknown booking"` substitutes the fallback title. -/
def _card_to_line (nfc : String → String) (card : Card) : Except PyErr (Option String) :=
  match card.dateSpan, card.timeSpan with
  | some dtext, some ttext =>
    match timeSearch ttext with
    | none => .ok none
    | some (ts, te) =>
      match _normalise_date dtext with
      | .error e => .error e
      | .ok date_iso =>
        match card.prevH3 with
        | none => .error .attributeError
        | some h =>
          let title := if h == "" then "Unknown booking" else h
          .ok (some (_canonical nfc (date_iso ++ " " ++ ts ++ "-" ++ te ++ " - " ++ title)))
  | _, _ => .ok none

/-- `DATE_WINDOW_DAYS` default (line 38; `int(os.getenv("DATE_WINDOW_DAYS", "57"))`).
The theorems take the configured value as a parameter `n`; this constant is
the default. -/
def DATE_WINDOW_DAYS : Nat := 57

/-- The date window built at lines 142–146: `today + timedelta(days=i)` for
`i in range(DATE_WINDOW_DAYS + 1)`.  Dates are modelled as day numbers, so
`today + timedelta(days=i)` is `today + i`. -/
def iso_dates (n : Nat) (today : Nat) : List Nat :=
  (List.range (n + 1)).map (fun i => today + i)

/-- `fetch_all_slots` (lines 141–160), with the browser abstracted into the
per-date result sets `linesForDate` (the value of `_lines_for_date` for each
date of the window): accumulate `seen.update(...)` over the window, then
return `sorted(seen)`.

Note on the source: line 155 reads `seen.update(await _lines_for_date(page, iso)`
and is missing its closing parenthesis, so the source file as committed is a
`SyntaxError` and cannot even be imported; the statement's evident intent
(and the only way to complete the expression) is `seen.update(...)`, which is
what this embedding models. -/
def fetch_all_slots (n today : Nat) (linesForDate : Nat → Finset String) : List String :=
  ((iso_dates n today).foldl (fun acc d => acc ∪ linesForDate d) ∅).sort (· ≤ ·)

/-- `load_previous` (lines 166–171), with the snapshot file content passed as
`snapFile` (`none` models the `FileNotFoundError` branch): read the text,
split into lines, canonicalize each, return the set. -/
def load_previous (nfc : String → String) (snapFile : Option String) : Finset String :=
  match snapFile with
  | none => ∅
  | some raw => ((pySplitlines raw).map (_canonical nfc)).toFinset

/-- `save_current` (lines 174–175): the exact text written to the snapshot
file, `"\n".join(lines)`. -/
def save_current (lines : List String) : String :=
  joinNL lines

/-- The `SMTP` configuration dict (lines 43–45): each key holds
`os.getenv(k)`, which is `None` (`none`) when the variable is unset. -/
structure SMTP where
  SMTP_HOST : Option String
  SMTP_PORT : Option String
  SMTP_USER : Option String
  SMTP_PASS : Option String
  SMTP_TO : Option String
deriving DecidableEq, Repr

/-- Python truthiness of one configuration value: `None` and `""` are falsy. -/
def truthy : Option String → Bool
  | none => false
  | some s => !s.isEmpty

/-- `all(SMTP.values())` (line 179). -/
def allTruthy (smtp : SMTP) : Bool :=
  truthy smtp.SMTP_HOST && truthy smtp.SMTP_PORT && truthy smtp.SMTP_USER &&
  truthy smtp.SMTP_PASS && truthy smtp.SMTP_TO

/-- Digit run of Python `int(str)` after the first digit: further digits with
single underscores allowed between digits only. -/
def pyIntDigits : List Char → Nat → Option Nat
  | [], acc => some acc
  | '_' :: c :: rest, acc =>
    if c.isDigit then pyIntDigits rest (acc * 10 + digitVal c) else none
  | c :: rest, acc =>
    if c.isDigit then pyIntDigits rest (acc * 10 + digitVal c) else none

/-- Python `int(s)` for a decimal string (line 187, `int(SMTP["SMTP_PORT"])`):
strip whitespace, optional single sign, then digits with single underscores
between digits; anything else raises `ValueError` (modelled as `none`). -/
def pyInt (s : String) : Option Int :=
  match pyStripList s.data with
  | '+' :: c :: rest =>
    if c.isDigit then (pyIntDigits rest (digitVal c)).map (fun v => (v : Int)) else none
  | '-' :: c :: rest =>
    if c.isDigit then (pyIntDigits rest (digitVal c)).map (fun v => -(v : Int)) else none
  | c :: rest =>
    if c.isDigit then (pyIntDigits rest (digitVal c)).map (fun v => (v : Int)) else none
  | [] => none

/-- Observable actions of `send_email` in order: building the
`EmailMessage` (lines 181–185), opening the SMTP connection (line 187; the
`starttls`/`login`/`send_message` calls are folded into the connection
outcome), and delivering the message. -/
inductive SEvent where
  | compose (subject : String) (body : String)
  | connect (host : String) (port : Int)
  | sendMsg
deriving DecidableEq, Repr

/-- `send_email` (lines 178–191): returns the performed actions and the
raised exception, if any.  Early return when `new_lines` is falsy or any
configuration value is falsy; otherwise the message is composed, then
`int(SMTP["SMTP_PORT"])` is evaluated (a non-integer port raises `ValueError`
before any connection is attempted), then the connection/TLS/login/delivery
happen — their failure is modelled by the oracle `netOk = false` and raises
an SMTP error. -/
def send_email (smtp : SMTP) (new_lines : List String) (netOk : Bool) :
    List SEvent × Option PyErr :=
  if new_lines.isEmpty || !allTruthy smtp then ([], none)
  else
    let subject := "[Ravenair Cloud] " ++ toString new_lines.length ++ " new booking slot(s)"
    let body := joinNL new_lines
    match pyInt (smtp.SMTP_PORT.getD "") with
    | none => ([.compose subject body], some .valueError)
    | some p =>
      if netOk then
        ([.compose subject body, .connect (smtp.SMTP_HOST.getD "") p, .sendMsg], none)
      else
        ([.compose subject body, .connect (smtp.SMTP_HOST.getD "") p], some .smtpError)

/-- Line 199: `new = [ln for ln in current if ln not in prev]`. -/
def newLines (current : List String) (prev : Finset String) : List String :=
  current.filter (fun ln => ln ∉ prev)

/-- Outcome of one run of `main`: the current result, the computed new lines,
what `send_email` did, and the text written by `save_current` (`none` when the
run aborted before reaching it). -/
structure MainResult where
  current : List String
  newlines : List String
  emailEvents : List SEvent
  emailError : Option PyErr
  savedFile : Option String
deriving DecidableEq, Repr

/-- `main` (lines 196–206): fetch, load previous snapshot, diff, notify,
persist.  An exception raised by `send_email` propagates, so `save_current`
is only reached when `send_email` returns normally. -/
def pymain (n today : Nat) (linesForDate : Nat → Finset String)
    (snapFile : Option String) (nfc : String → String) (smtp : SMTP)
    (netOk : Bool) : MainResult :=
  let current := fetch_all_slots n today linesForDate
  let prev := load_previous nfc snapFile
  let nw := newLines current prev
  let r := send_email smtp nw netOk
  match r.2 with
  | some e => ⟨current, nw, r.1, some e, none⟩
  | none => ⟨current, nw, r.1, none, some (save_current current)⟩

/-! ### Helper lemmas about the canonicalization pipeline -/

/-- Every whitespace character in the output of the whitespace collapse is a
plain space. -/
theorem wsCollapseAux_spaceOnly (l : List Char) :
    ∀ (b : Bool) (c : Char), c ∈ wsCollapseAux b l → isPySpace c = true → c = ' ' := by
  induction l with
  | nil => intro b c hc _; simp [wsCollapseAux] at hc
  | cons d rest ih =>
    intro b c hc hsp
    by_cases hd : isPySpace d
    · cases b with
      | true =>
        simp [wsCollapseAux, hd] at hc
        exact ih true c hc hsp
      | false =>
        simp [wsCollapseAux, hd] at hc
        rcases hc with h | h
        · exact h
        · exact ih true c h hsp
    · simp [wsCollapseAux, hd] at hc
      rcases hc with h | h
      · subst h; exact absurd hsp (by simp [hd])
      · exact ih false c h hsp

/-- Characters of the whitespace-collapsed list come from the input, except
for the introduced spaces. -/
theorem wsCollapseAux_subset (l : List Char) :
    ∀ (b : Bool) (c : Char), c ∈ wsCollapseAux b l → c = ' ' ∨ c ∈ l := by
  induction l with
  | nil => intro b c hc; simp [wsCollapseAux] at hc
  | cons d rest ih =>
    intro b c hc
    by_cases hd : isPySpace d
    · cases b with
      | true =>
        simp [wsCollapseAux, hd] at hc
        rcases ih true c hc with h | h
        · exact Or.inl h
        · exact Or.inr (List.mem_cons_of_mem d h)
      | false =>
        simp [wsCollapseAux, hd] at hc
        rcases hc with h | h
        · exact Or.inl h
        · rcases ih true c h with h2 | h2
          · exact Or.inl h2
          · exact Or.inr (List.mem_cons_of_mem d h2)
    · simp [wsCollapseAux, hd] at hc
      rcases hc with h | h
      · exact Or.inr (h ▸ List.mem_cons_self d rest)
      · rcases ih false c h with h2 | h2
        · exact Or.inl h2
        · exact Or.inr (List.mem_cons_of_mem d h2)

/-- While inside a whitespace run, the next emitted character is not
whitespace. -/
theorem wsCollapseAux_true_head (l : List Char) :
    ∀ c : Char, (wsCollapseAux true l).head? = some c → isPySpace c = false := by
  induction l with
  | nil => intro c hc; simp [wsCollapseAux] at hc
  | cons d rest ih =>
    intro c hc
    by_cases hd : isPySpace d
    · simp [wsCollapseAux, hd] at hc
      exact ih c hc
    · simp [wsCollapseAux, hd] at hc
      subst hc
      simp [hd]

/-- The whitespace-collapsed list has no two adjacent whitespace characters. -/
theorem wsCollapseAux_chain (l : List Char) :
    ∀ b : Bool, List.Chain' (fun a c => ¬(isPySpace a = true ∧ isPySpace c = true))
      (wsCollapseAux b l) := by
  induction l with
  | nil => intro b; simp [wsCollapseAux]
  | cons d rest ih =>
    intro b
    by_cases hd : isPySpace d
    · cases b with
      | true => simpa [wsCollapseAux, hd] using ih true
      | false =>
        simp only [wsCollapseAux]
        rw [if_pos hd, if_neg (by simp)]
        refine List.chain'_cons'.mpr ⟨?_, ih true⟩
        intro y hy hcon
        exact absurd hcon.2 (by simp [wsCollapseAux_true_head rest y hy])
    · simp only [wsCollapseAux]
      rw [if_neg hd]
      refine List.chain'_cons'.mpr ⟨?_, ih false⟩
      intro y _ hcon
      exact absurd hcon.1 (by simp [hd])

/-- When the head of the input is not whitespace, the in-run flag is
irrelevant. -/
theorem wsCollapseAux_true_eq_false (l : List Char)
    (h : ∀ c : Char, l.head? = some c → isPySpace c = false) :
    wsCollapseAux true l = wsCollapseAux false l := by
  cases l with
  | nil => rfl
  | cons d rest =>
    have hd := h d rfl
    simp [wsCollapseAux, hd]

/-- The whitespace collapse fixes any list whose whitespace is single plain
spaces. -/
theorem wsCollapseAux_fixed (l : List Char)
    (hspace : ∀ c ∈ l, isPySpace c = true → c = ' ')
    (hchain : List.Chain' (fun a c => ¬(isPySpace a = true ∧ isPySpace c = true)) l) :
    wsCollapseAux false l = l := by
  induction l with
  | nil => rfl
  | cons d rest ih =>
    by_cases hd : isPySpace d
    · have hd' : d = ' ' := hspace d (List.mem_cons_self d rest) hd
      simp only [wsCollapseAux]
      rw [if_pos hd, if_neg (by simp)]
      cases rest with
      | nil => simp [wsCollapseAux, hd']
      | cons e rest2 =>
        have he : isPySpace e = false := by
          have hre := (List.chain'_cons.mp hchain).1
          by_contra hne
          exact hre ⟨hd, by simpa using hne⟩
        rw [wsCollapseAux_true_eq_false (e :: rest2) (by intro c hc; cases hc; exact he)]
        rw [ih (fun c hc h2 => hspace c (List.mem_cons_of_mem d hc) h2)
          (List.Chain'.tail hchain)]
        rw [hd']
    · simp only [wsCollapseAux]
      rw [if_neg hd]
      rw [ih (fun c hc h2 => hspace c (List.mem_cons_of_mem d hc) h2)
        (List.Chain'.tail hchain)]

/-- The head surviving `dropWhile isPySpace` is not whitespace. -/
theorem dropWhile_head_not (l : List Char) :
    ∀ c : Char, (l.dropWhile isPySpace).head? = some c → isPySpace c = false := by
  induction l with
  | nil => intro c hc; simp at hc
  | cons d rest ih =>
    intro c hc
    by_cases hd : isPySpace d
    · rw [List.dropWhile_cons_of_pos hd] at hc
      exact ih c hc
    · rw [List.dropWhile_cons_of_neg hd] at hc
      simp at hc
      subst hc
      simpa using hd

/-- `dropWhile isPySpace` fixes a list whose head is not whitespace. -/
theorem dropWhile_eq_self_of_head (l : List Char)
    (h : ∀ c : Char, l.head? = some c → isPySpace c = false) :
    l.dropWhile isPySpace = l := by
  cases l with
  | nil => rfl
  | cons d rest => exact List.dropWhile_cons_of_neg (by simp [h d rfl])

/-- Characters of the stripped list come from the input. -/
theorem mem_pyStripList (l : List Char) (c : Char) (hc : c ∈ pyStripList l) : c ∈ l := by
  unfold pyStripList at hc
  rw [List.mem_reverse] at hc
  have h1 := (List.dropWhile_sublist isPySpace).subset hc
  rw [List.mem_reverse] at h1
  exact (List.dropWhile_sublist isPySpace).subset h1

/-- The adjacency chain is preserved by stripping. -/
theorem chain_pyStripList (l : List Char)
    (h : List.Chain' (fun a c => ¬(isPySpace a = true ∧ isPySpace c = true)) l) :
    List.Chain' (fun a c => ¬(isPySpace a = true ∧ isPySpace c = true)) (pyStripList l) := by
  unfold pyStripList
  rw [List.chain'_reverse]
  have h2 : List.Chain' (fun a c => ¬(isPySpace a = true ∧ isPySpace c = true))
      ((l.dropWhile isPySpace).reverse.dropWhile isPySpace) := by
    refine List.Chain'.suffix ?_ (List.dropWhile_suffix isPySpace)
    rw [List.chain'_reverse]
    refine List.Chain'.imp ?_ (List.Chain'.suffix h (List.dropWhile_suffix isPySpace))
    intro a b hab hcon
    exact hab ⟨hcon.2, hcon.1⟩
  refine List.Chain'.imp ?_ h2
  intro a b hab hcon
  exact hab ⟨hcon.2, hcon.1⟩

/-- The stripped list does not begin with whitespace. -/
theorem pyStripList_head (l : List Char) :
    ∀ c : Char, (pyStripList l).head? = some c → isPySpace c = false := by
  intro c hc
  unfold pyStripList at hc
  rw [List.head?_reverse] at hc
  set A := l.dropWhile isPySpace with hA
  set B := A.reverse.dropWhile isPySpace with hB
  have hBne : B ≠ [] := by
    intro hnil
    rw [hnil] at hc
    simp at hc
  have hdecomp : A.reverse.takeWhile isPySpace ++ B = A.reverse :=
    List.takeWhile_append_dropWhile isPySpace A.reverse
  have hlast : B.getLast? = A.reverse.getLast? := by
    rw [← hdecomp, List.getLast?_append]
    cases hB2 : B.getLast? with
    | none => exact absurd (List.getLast?_eq_none_iff.mp hB2) hBne
    | some x => simp
  rw [hlast, List.getLast?_reverse] at hc
  exact dropWhile_head_not l c hc

/-- The stripped list does not end with whitespace. -/
theorem pyStripList_getLast (l : List Char) :
    ∀ c : Char, (pyStripList l).getLast? = some c → isPySpace c = false := by
  intro c hc
  unfold pyStripList at hc
  rw [List.getLast?_reverse] at hc
  exact dropWhile_head_not _ c hc

/-- Stripping fixes a list that neither begins nor ends with whitespace. -/
theorem pyStripList_eq_self (l : List Char)
    (h1 : ∀ c : Char, l.head? = some c → isPySpace c = false)
    (h2 : ∀ c : Char, l.getLast? = some c → isPySpace c = false) :
    pyStripList l = l := by
  unfold pyStripList
  rw [dropWhile_eq_self_of_head l h1]
  rw [dropWhile_eq_self_of_head l.reverse (by rw [List.head?_reverse]; exact h2)]
  exact List.reverse_reverse l

/-- `dashFix` is idempotent. -/
theorem dashFix_idem (c : Char) : dashFix (dashFix c) = dashFix c := by
  by_cases h : (c == '–' || c == '—') = true
  · have h1 : dashFix c = '-' := by rw [dashFix, if_pos h]
    rw [h1]; rfl
  · have h1 : dashFix c = c := by rw [dashFix, if_neg h]
    rw [h1, dashFix, if_neg h]

/-- The output of the post-normalization pipeline contains no en/em dashes,
so `dashFix` fixes it characterwise. -/
theorem postNfc_dashFree (s : String) :
    (postNfc s).data.map dashFix = (postNfc s).data := by
  apply List.map_congr_left ?_ |>.trans (List.map_id _)
  intro c hc
  have hc2 := mem_pyStripList _ c hc
  rcases wsCollapseAux_subset _ false c hc2 with h | h
  · subst h; rfl
  · rcases List.mem_map.mp h with ⟨x, _, hx⟩
    subst hx
    exact dashFix_idem x

/-- The post-normalization pipeline is idempotent: its output has plain
single spaces as its only whitespace, none of them leading, trailing or
adjacent, and no en/em dashes, so every stage fixes it. -/
theorem postNfc_idem (s : String) : postNfc (postNfc s) = postNfc s := by
  show String.mk (pyStripList (wsCollapseAux false ((postNfc s).data.map dashFix)))
    = postNfc s
  rw [postNfc_dashFree s]
  have hdata : (postNfc s).data = pyStripList (wsCollapseAux false (s.data.map dashFix)) := rfl
  rw [hdata]
  rw [wsCollapseAux_fixed _
    (fun c hc h2 => wsCollapseAux_spaceOnly _ false c (mem_pyStripList _ c hc) h2)
    (chain_pyStripList _ (wsCollapseAux_chain _ false))]
  rw [pyStripList_eq_self _ (pyStripList_head _) (pyStripList_getLast _)]
  rfl

/-- Whitespace characters in a `_canonical` fixed point are plain spaces. -/
theorem canonical_fixed_spaceOnly (nfc : String → String) (l : String)
    (h : _canonical nfc l = l) :
    ∀ c ∈ l.data, isPySpace c = true → c = ' ' := by
  intro c hc hsp
  rw [← h] at hc
  exact wsCollapseAux_spaceOnly _ false c (mem_pyStripList _ c hc) hsp

/-- Every `str.splitlines` boundary character is whitespace. -/
theorem lineBreak_isPySpace (c : Char) (h : isLineBreakChar c = true) :
    isPySpace c = true := by
  simp only [isLineBreakChar, Bool.or_eq_true, beq_iff_eq] at h
  rcases h with ((((((((h | h) | h) | h) | h) | h) | h) | h) | h) | h <;> subst h <;> decide

/-- A `_canonical` fixed point contains no line-boundary characters. -/
theorem canonical_fixed_no_break (nfc : String → String) (l : String)
    (h : _canonical nfc l = l) :
    ∀ c ∈ l.data, isLineBreakChar c = false := by
  intro c hc
  by_contra hb
  have hb2 : isLineBreakChar c = true := by
    cases h2 : isLineBreakChar c
    · exact absurd h2 hb
    · rfl
  have hsp := lineBreak_isPySpace c hb2
  have := canonical_fixed_spaceOnly nfc l h c hc hsp
  subst this
  exact absurd hb2 (by decide)

theorem pySplitlinesAux_newline (rest acc : List Char) :
    pySplitlinesAux ('\n' :: rest) acc
      = String.mk acc.reverse :: pySplitlinesAux rest [] := by
  have h1 : isLineBreakChar '\n' = true := by decide
  cases rest with
  | nil => simp [pySplitlinesAux.eq_2, pySplitlinesAux.eq_1, h1]
  | cons d rest2 =>
    have h2 : ('\n' == '\x0d') = false := by decide
    simp [pySplitlinesAux.eq_3, h1, h2]

theorem pySplitlinesAux_cons_nonbreak (c : Char) (rest acc : List Char)
    (h : isLineBreakChar c = false) :
    pySplitlinesAux (c :: rest) acc = pySplitlinesAux rest (c :: acc) := by
  cases rest with
  | nil => simp [pySplitlinesAux.eq_2, h]
  | cons d rest2 => simp [pySplitlinesAux.eq_3, h]

theorem pySplitlinesAux_append (cs : List Char)
    (hcs : ∀ c ∈ cs, isLineBreakChar c = false) :
    ∀ (rest acc : List Char), pySplitlinesAux (cs ++ rest) acc
      = pySplitlinesAux rest (cs.reverse ++ acc) := by
  induction cs with
  | nil => intro rest acc; simp
  | cons d cs2 ih =>
    intro rest acc
    have hd : isLineBreakChar d = false := hcs d (List.mem_cons_self d cs2)
    rw [List.cons_append, pySplitlinesAux_cons_nonbreak d _ acc hd]
    rw [ih (fun c hc => hcs c (List.mem_cons_of_mem d hc)) rest (d :: acc)]
    simp

theorem pySplitlines_single (l : String)
    (hnb : ∀ c ∈ l.data, isLineBreakChar c = false) (hne : l ≠ "") :
    pySplitlines l = [l] := by
  unfold pySplitlines
  have h0 : l.data = l.data ++ ([] : List Char) := by simp
  rw [h0, pySplitlinesAux_append l.data hnb [] []]
  rw [pySplitlinesAux.eq_1]
  have hd : l.data ≠ [] := by
    intro hdd
    exact hne (by cases l; simp_all)
  rw [if_neg (by simp [hd])]
  simp

theorem pySplitlines_joinNL (lines : List String)
    (h : ∀ l ∈ lines, (∀ c ∈ l.data, isLineBreakChar c = false) ∧ l ≠ "") :
    pySplitlines (joinNL lines) = lines := by
  induction lines with
  | nil => rfl
  | cons l rest ih =>
    cases rest with
    | nil =>
      exact pySplitlines_single l (h l (List.mem_cons_self l [])).1
        (h l (List.mem_cons_self l [])).2
    | cons l2 rest2 =>
      have hl := h l (List.mem_cons_self l (l2 :: rest2))
      show pySplitlinesAux (joinNL (l :: l2 :: rest2)).data [] = l :: l2 :: rest2
      have hdata : (joinNL (l :: l2 :: rest2)).data
          = l.data ++ ('\n' :: (joinNL (l2 :: rest2)).data) := by
        have hj : joinNL (l :: l2 :: rest2) = l ++ "\n" ++ joinNL (l2 :: rest2) := rfl
        rw [hj, String.data_append, String.data_append, List.append_assoc]
        rfl
      rw [hdata, pySplitlinesAux_append l.data hl.1 _ [], pySplitlinesAux_newline]
      have hmk : String.mk ((l.data.reverse ++ ([] : List Char)).reverse) = l := by
        cases l; simp
      rw [hmk]
      have := ih (fun x hx => h x (List.mem_cons_of_mem l hx))
      unfold pySplitlines at this
      rw [this]

/-- Membership in the `seen.update(...)` accumulation fold. -/
theorem mem_foldl_union (dates : List Nat) (f : Nat → Finset String) :
    ∀ (init : Finset String) (l : String),
      l ∈ dates.foldl (fun acc d => acc ∪ f d) init ↔ l ∈ init ∨ ∃ d ∈ dates, l ∈ f d := by
  induction dates with
  | nil => intro init l; simp
  | cons d ds ih =>
    intro init l
    rw [List.foldl_cons, ih (init ∪ f d) l, Finset.mem_union]
    constructor
    · rintro ((h | h) | ⟨d2, hd2, hl⟩)
      · exact Or.inl h
      · exact Or.inr ⟨d, List.mem_cons_self d ds, h⟩
      · exact Or.inr ⟨d2, List.mem_cons_of_mem d hd2, hl⟩
    · rintro (h | ⟨d2, hd2, hl⟩)
      · exact Or.inl (Or.inl h)
      · rcases List.mem_cons.mp hd2 with rfl | hd3
        · exact Or.inl (Or.inr hl)
        · exact Or.inr ⟨d2, hd3, hl⟩

/-- One-date window over a constant singleton per-date result. -/
theorem fetch_all_slots_singleton_window (x : String) :
    fetch_all_slots 0 0 (fun _ => {x}) = [x] := by
  unfold fetch_all_slots
  have h0 : iso_dates 0 0 = [0] := rfl
  rw [h0]
  have h1 : ([0] : List Nat).foldl
      (fun acc d => acc ∪ (fun _ => ({x} : Finset String)) d) ∅ = {x} := by
    simp
  rw [h1]
  exact Finset.sort_singleton (· ≤ ·) x

/-! ### Claim theorems -/

/-- Claim C2 (property of the repaired line 155, see `fetch_all_slots`):
`fetch_all_slots` returns the union of the per-date result sets over the
whole window, accumulated into one set and sorted lexicographically, and the
returned list depends only on that union — not on which date each line came
from. -/
theorem c2_fetch_all_slots_sorted_union (n today : Nat) (f : Nat → Finset String) :
    List.Sorted (· ≤ ·) (fetch_all_slots n today f) ∧
    (fetch_all_slots n today f).Nodup ∧
    (∀ l, l ∈ fetch_all_slots n today f ↔ ∃ d ∈ iso_dates n today, l ∈ f d) ∧
    (∀ g : Nat → Finset String,
      (∀ l, (∃ d ∈ iso_dates n today, l ∈ f d) ↔ (∃ d ∈ iso_dates n today, l ∈ g d)) →
      fetch_all_slots n today f = fetch_all_slots n today g) := by
  refine ⟨Finset.sort_sorted _ _, Finset.sort_nodup _ _, ?_, ?_⟩
  · intro l
    unfold fetch_all_slots
    rw [Finset.mem_sort, mem_foldl_union (iso_dates n today) f ∅ l]
    simp
  · intro g hfg
    unfold fetch_all_slots
    congr 1
    apply Finset.ext
    intro l
    rw [mem_foldl_union _ f ∅ l, mem_foldl_union _ g ∅ l]
    simp [hfg l]

/-- Witness for C2 at a one-day window: two different per-date assignments
with the same union give the same run result. -/
theorem c2_witness :
    fetch_all_slots 0 0 (fun d => if d = 0 then {"a"} else ∅)
      = fetch_all_slots 0 0 (fun _ => {"a"}) :=
  (c2_fetch_all_slots_sorted_union 0 0 (fun d => if d = 0 then {"a"} else ∅)).2.2.2
    (fun _ => {"a"}) (by intro l; simp [iso_dates])

/-- Claim C3, counterexample: with the (default) configured window length of
57, the window built by `iso_dates` contains 58 dates, not 57. -/
theorem c3_counterexample :
    (iso_dates DATE_WINDOW_DAYS 0).length ≠ DATE_WINDOW_DAYS := by
  simp [iso_dates, DATE_WINDOW_DAYS]

/-- Claim C3 as amended: for configured window length `n`, the date window is
an ordered sequence of consecutive dates starting today, and it spans `n + 1`
days (`range(DATE_WINDOW_DAYS + 1)` — the endpoint is included). -/
theorem c3_date_window_consecutive (n today : Nat) :
    (iso_dates n today).length = n + 1 ∧
    (iso_dates n today).head? = some today ∧
    List.Chain' (fun a b => b = a + 1) (iso_dates n today) := by
  refine ⟨by simp [iso_dates], ?_, ?_⟩
  · rw [iso_dates, List.range_succ_eq_map]
    simp
  · rw [iso_dates, List.chain'_map, List.chain'_range_succ]
    intro m _
    omega

/-- Claim C5: the computed new lines are exactly the sublist of the current
run result, in its order, of lines not present in the previous snapshot;
including the two concrete instances named by the claim. -/
theorem c5_new_lines_diff (current : List String) (prev : Finset String) :
    (newLines current prev).Sublist current ∧
    (∀ l, l ∈ newLines current prev ↔ l ∈ current ∧ l ∉ prev) ∧
    ((∀ l ∈ current, l ∈ prev) → newLines current prev = []) ∧
    newLines ["2025-06-01 08:00-09:00 - X", "2025-06-02 10:00-11:00 - Y"]
      {"2025-06-01 08:00-09:00 - X"} = ["2025-06-02 10:00-11:00 - Y"] ∧
    newLines ["2025-06-01 08:00-09:00 - X"] {"2025-06-01 08:00-09:00 - X"} = [] := by
  refine ⟨List.filter_sublist current, ?_, ?_, by decide, by decide⟩
  · intro l
    simp [newLines]
  · intro hsub
    simp only [newLines, List.filter_eq_nil_iff]
    intro a ha
    simp [hsub a ha]

/-- Witness for C5: a current result entirely contained in the snapshot
yields no new lines. -/
theorem c5_witness : newLines ["a"] ({"a"} : Finset String) = [] :=
  (c5_new_lines_diff ["a"] {"a"}).2.2.1 (by decide)

/-- Claim C4, counterexample: a run in which scraping succeeds (one slot
found), there is no previous snapshot, the mail configuration is complete and
valid, but delivery fails — `send_email` raises, so `save_current` is never
reached and no snapshot is written. -/
theorem c4_email_failure_skips_save :
    (pymain 0 0 (fun _ => {"2025-06-01 08:00-09:00 - X"}) none (fun s => s)
      ⟨some "smtp.example.com", some "587", some "user@example.com", some "pw",
        some "to@example.com"⟩ false).savedFile = none := by
  have hcur := fetch_all_slots_singleton_window "2025-06-01 08:00-09:00 - X"
  simp only [pymain]
  rw [hcur]
  rfl

/-- Claim C4 as amended: `save_current` runs, with the full current result,
exactly when `send_email` returns normally (in particular also when nothing
changed and the notifier was a no-op); when `send_email` raises, the run
aborts first and the snapshot file is not overwritten. -/
theorem c4_save_iff_email_ok (n today : Nat) (f : Nat → Finset String)
    (snap : Option String) (nfc : String → String) (smtp : SMTP) (netOk : Bool) :
    ((pymain n today f snap nfc smtp netOk).emailError = none →
      (pymain n today f snap nfc smtp netOk).savedFile
        = some (save_current (fetch_all_slots n today f))) ∧
    (∀ e, (pymain n today f snap nfc smtp netOk).emailError = some e →
      (pymain n today f snap nfc smtp netOk).savedFile = none) := by
  simp only [pymain]
  cases hr : (send_email smtp
      (newLines (fetch_all_slots n today f) (load_previous nfc snap)) netOk).2 with
  | none => simp [hr]
  | some e => simp [hr]

/-- Witness for C4: an unchanged (here: empty) run with missing mail
configuration still writes the snapshot. -/
theorem c4_witness :
    (pymain 0 0 (fun _ => ∅) none (fun s => s) ⟨none, none, none, none, none⟩
      true).savedFile = some (save_current (fetch_all_slots 0 0 (fun _ => ∅))) := by
  apply (c4_save_iff_email_ok 0 0 (fun _ => ∅) none (fun s => s)
    ⟨none, none, none, none, none⟩ true).1
  simp only [pymain]
  have hsend : ∀ nl : List String,
      send_email ⟨none, none, none, none, none⟩ nl true = ([], none) := by
    intro nl
    simp [send_email, allTruthy, truthy]
  rw [hsend]

/-- Claim C9: `send_email` performs no action at all — no composition, no
network action — when the new-lines list is empty or any of the five mail
configuration values is absent. -/
theorem c9_send_email_noop (smtp : SMTP) (new_lines : List String) (netOk : Bool)
    (h : new_lines = [] ∨ smtp.SMTP_HOST = none ∨ smtp.SMTP_PORT = none ∨
      smtp.SMTP_USER = none ∨ smtp.SMTP_PASS = none ∨ smtp.SMTP_TO = none) :
    send_email smtp new_lines netOk = ([], none) := by
  have hcond : (new_lines.isEmpty || !allTruthy smtp) = true := by
    rcases h with h | h | h | h | h | h
    · simp [h]
    · simp [allTruthy, truthy, h]
    · simp [allTruthy, truthy, h]
    · simp [allTruthy, truthy, h]
    · simp [allTruthy, truthy, h]
    · simp [allTruthy, truthy, h]
  unfold send_email
  rw [if_pos hcond]

/-- Witness for C9: a missing host short-circuits even with a non-empty
new-lines list. -/
theorem c9_witness :
    send_email ⟨none, some "587", some "u", some "p", some "t"⟩ ["x"] true
      = ([], none) :=
  c9_send_email_noop ⟨none, some "587", some "u", some "p", some "t"⟩ ["x"] true
    (Or.inr (Or.inl rfl))

/-- Claim C10: with a complete (truthy) mail configuration but a port value
that is not a decimal integer string, `send_email` on any non-empty new-lines
list composes the message, then raises `ValueError` from the integer
conversion of the port before any connection is attempted; inside a run this
exception propagates, so the run aborts (no snapshot is written). -/
theorem c10_bad_port_raises_before_connect (smtp : SMTP) (netOk : Bool)
    (h2 : allTruthy smtp = true) (h3 : pyInt (smtp.SMTP_PORT.getD "") = none) :
    (∀ new_lines : List String, new_lines ≠ [] →
      send_email smtp new_lines netOk
        = ([SEvent.compose
              ("[Ravenair Cloud] " ++ toString new_lines.length ++ " new booking slot(s)")
              (joinNL new_lines)], some PyErr.valueError) ∧
      ∀ host p, SEvent.connect host p ∉ (send_email smtp new_lines netOk).1) ∧
    (∀ n today f snap nfc,
      newLines (fetch_all_slots n today f) (load_previous nfc snap) ≠ [] →
      (pymain n today f snap nfc smtp netOk).emailError = some PyErr.valueError ∧
      (pymain n today f snap nfc smtp netOk).savedFile = none) := by
  have hsend : ∀ nl : List String, nl ≠ [] →
      send_email smtp nl netOk
        = ([SEvent.compose
              ("[Ravenair Cloud] " ++ toString nl.length ++ " new booking slot(s)")
              (joinNL nl)], some PyErr.valueError) := by
    intro nl hnl
    have hcond : (nl.isEmpty || !allTruthy smtp) = false := by
      simp [h2, hnl]
    unfold send_email
    rw [if_neg (by simp [hcond])]
    simp [h3]
  refine ⟨?_, ?_⟩
  · intro nl hnl
    refine ⟨hsend nl hnl, ?_⟩
    intro host p
    rw [hsend nl hnl]
    simp
  · intro n today f snap nfc hne
    constructor
    · simp only [pymain]
      rw [hsend _ hne]
    · simp only [pymain]
      rw [hsend _ hne]

/-- Witness for C10: non-numeric port "port!" with otherwise complete
configuration and one new line aborts the run before saving. -/
theorem c10_witness :
    (pymain 0 0 (fun _ => {"a"}) none (fun s => s)
      ⟨some "h", some "port!", some "u", some "p", some "t"⟩ true).savedFile
      = none := by
  have hne : newLines (fetch_all_slots 0 0 (fun _ => {"a"}))
      (load_previous (fun s => s) none) ≠ [] := by
    rw [fetch_all_slots_singleton_window "a"]
    decide
  exact ((c10_bad_port_raises_before_connect
    ⟨some "h", some "port!", some "u", some "p", some "t"⟩ true (by decide)
    (by decide)).2 0 0 (fun _ => {"a"}) none (fun s => s) hne).2

/-- Claim C1 (code bug): a card whose date and time sub-elements are present
and valid but which has no preceding heading does not get the fallback title
"Unknown booking" — the title expression evaluates `"".get_text`, raising
`AttributeError`. -/
theorem c1_no_heading_attribute_error :
    _card_to_line (fun s => s) ⟨some "June 01, 2025", some "08:00-09:00", none⟩
      = .error .attributeError := rfl

/-- Claim C6: a card yields no line and raises nothing exactly when a
sub-element is absent or the time text does not match the time pattern;
whereas when both sub-elements are present and the time matches but the date
text fails the long-form parse, the card parser raises that `ValueError`. -/
theorem c6_card_skip_vs_fatal (nfc : String → String) (card : Card) :
    (_card_to_line nfc card = .ok none ↔
      card.dateSpan = none ∨ card.timeSpan = none ∨
      (∃ t, card.timeSpan = some t ∧ timeSearch t = none)) ∧
    (∀ d t, card.dateSpan = some d → card.timeSpan = some t →
      timeSearch t ≠ none → _normalise_date d = .error .valueError →
      _card_to_line nfc card = .error .valueError) := by
  obtain ⟨ds, ts, h3⟩ := card
  constructor
  · cases ds with
    | none => simp [_card_to_line]
    | some d =>
      cases ts with
      | none => simp [_card_to_line]
      | some t =>
        simp only [_card_to_line]
        cases hts : timeSearch t with
        | none => simp [hts]
        | some p =>
          obtain ⟨s, e⟩ := p
          cases hnd : _normalise_date d with
          | error er => simp [hts, hnd]
          | ok di =>
            cases h3 with
            | none => simp [hts, hnd]
            | some h => simp [hts, hnd]
  · intro d t hd ht hts hnd
    simp only at hd ht
    subst hd
    subst ht
    simp only [_card_to_line]
    cases hts2 : timeSearch t with
    | none => exact absurd hts2 hts
    | some p =>
      obtain ⟨s, e⟩ := p
      simp [hts2, hnd]

/-- Witness for C6: a well-formed time text with an unparsable date text is a
fatal `ValueError`. -/
theorem c6_witness :
    _card_to_line (fun s => s) ⟨some "not a date", some "08:00-09:00", none⟩
      = .error .valueError :=
  (c6_card_skip_vs_fatal (fun s => s)
    ⟨some "not a date", some "08:00-09:00", none⟩).2 "not a date" "08:00-09:00"
    rfl rfl (by decide) (by rfl)

/-- Claim C8: canonicalization is idempotent.  `unicodedata.normalize("NFC", ·)`
is an external Unicode-database primitive, so the theorem is parametric in
the normalizer `nfc`; the hypothesis is the Unicode normalization property
the pipeline relies on — the output of the pipeline on an already-normalized
string is still normalized (dash replacement, whitespace collapsing to plain
spaces and stripping create no new composition opportunities, and NFC itself
is idempotent).  The string-processing stages are proved idempotent
outright (`postNfc_idem`). -/
theorem c8_canonical_idempotent (nfc : String → String)
    (hnfc : ∀ t, nfc (postNfc (nfc t)) = postNfc (nfc t)) (s : String) :
    _canonical nfc (_canonical nfc s) = _canonical nfc s := by
  show postNfc (nfc (postNfc (nfc s))) = postNfc (nfc s)
  rw [hnfc s, postNfc_idem]

/-- Witness for C8 at the identity normalizer and a string with doubled
whitespace, an en dash and padding. -/
theorem c8_witness :
    _canonical (fun s => s) (_canonical (fun s => s) " a  –  b ")
      = _canonical (fun s => s) " a  –  b " :=
  c8_canonical_idempotent (fun s => s) (fun _ => rfl) " a  –  b "

/-- Claim C7: snapshot round-trip — saving canonical nonempty slot lines and
loading them back (through canonicalization) yields exactly the same
canonical set; a missing file and an empty file both load as the empty
set. -/
theorem c7_snapshot_roundtrip (nfc : String → String) (lines : List String)
    (h : ∀ l ∈ lines, _canonical nfc l = l ∧ l ≠ "") :
    load_previous nfc (some (save_current lines)) = lines.toFinset ∧
    load_previous nfc none = ∅ ∧
    load_previous nfc (some "") = ∅ := by
  refine ⟨?_, rfl, rfl⟩
  show ((pySplitlines (joinNL lines)).map (_canonical nfc)).toFinset = lines.toFinset
  rw [pySplitlines_joinNL lines
    (fun l hl => ⟨canonical_fixed_no_break nfc l (h l hl).1, (h l hl).2⟩)]
  congr 1
  apply List.map_congr_left ?_ |>.trans (List.map_id _)
  intro l hl
  exact (h l hl).1

/-- Witness for C7 on a one-line snapshot. -/
theorem c7_witness :
    load_previous (fun s => s) (some (save_current ["2025-06-01 08:00-09:00 - X"]))
      = ({"2025-06-01 08:00-09:00 - X"} : Finset String) := by
  have h := (c7_snapshot_roundtrip (fun s => s) ["2025-06-01 08:00-09:00 - X"]
    (by
      intro l hl
      rw [List.mem_singleton] at hl
      subst hl
      exact ⟨by rfl, by decide⟩)).1
  rw [h]
  rfl

example : _canonical (fun s => s) " 2025-06-01  08:00—09:00 -  X " =
    "2025-06-01 08:00-09:00 - X" := by decide
example : _normalise_date "June 01, 2025" = .ok "2025-06-01" := by rfl
example : _normalise_date "  june 1, 2025  " = .ok "2025-06-01" := by rfl
example : _normalise_date "February 30, 2025" = .error .valueError := by rfl
example : _normalise_date "February 29, 2024" = .ok "2024-02-29" := by rfl
example : _normalise_date "February 29, 2025" = .error .valueError := by rfl
example : _normalise_date "June 01,2025" = .error .valueError := by rfl
example : _normalise_date "June 01, 25" = .error .valueError := by rfl
example : _normalise_date "Junex 01, 2025" = .error .valueError := by rfl
example : _normalise_date "December 31, 1999" = .ok "1999-12-31" := by rfl
example : timeSearch "xx 08:00  -  09:00 yy" = some ("08:00", "09:00") := by rfl
example : timeSearch "8:00-9:00" = none := by rfl
example : timeSearch "08:00–09:00" = none := by rfl
example : timeSearch "108:30-09:45" = some ("08:30", "09:45") := by rfl
example : _card_to_line (fun s => s)
    ⟨some "June 01, 2025", some " 08:00 - 09:00", some "UK PPL – PA28"⟩
    = .ok (some "2025-06-01 08:00-09:00 - UK PPL - PA28") := by rfl
example : _card_to_line (fun s => s)
    ⟨some "June 01, 2025", some "08:00-09:00", some ""⟩
    = .ok (some "2025-06-01 08:00-09:00 - Unknown booking") := by rfl
example : _card_to_line (fun s => s) ⟨none, some "08:00-09:00", some "T"⟩
    = .ok none := by rfl
example : _card_to_line (fun s => s) ⟨some "June 01, 2025", some "soon", some "T"⟩
    = .ok none := by rfl
example : pySplitlines "a\nb" = ["a", "b"] := by rfl
example : pySplitlines "a\n" = ["a"] := by rfl
example : pySplitlines "" = [] := by rfl
example : pySplitlines "a\r\nb\rc" = ["a", "b", "c"] := by rfl
example : pySplitlines "\n\n" = ["", ""] := by rfl
example : pyInt "587" = some 587 := by rfl
example : pyInt "  58_7 " = some 587 := by rfl
example : pyInt "port!" = none := by rfl
example : pyInt "" = none := by rfl
example : pyInt "+12" = some 12 := by rfl
example : pyInt "-12" = some (-12) := by rfl
example : pyInt "1__2" = none := by rfl
example : pyInt "_12" = none := by rfl
example : pyInt "12_" = none := by rfl
example : iso_dates 2 5 = [5, 6, 7] := by rfl
example : joinNL ["a", "b"] = "a\nb" := by rfl
example : joinNL [] = "" := by rfl
example : send_email ⟨some "h", some "587", some "u", some "p", some "t"⟩
    ["x", "y"] true
    = ([.compose "[Ravenair Cloud] 2 new booking slot(s)" "x\ny",
        .connect "h" 587, .sendMsg], none) := by rfl
example : send_email ⟨some "h", some "", some "u", some "p", some "t"⟩ ["x"] true
    = ([], none) := by rfl
